import Mathlib

/-!
Verification of the technical-indicator, volume-analysis and market-score
pipeline of this repository (`price_data.py`, `utils/price_data.py`,
`utils/volume_analysis.py`, `market_analysis.py`).

Modelling conventions.  A pandas dataframe of one symbol's OHLCV history is a
`DF`: a row count `n`, the five base columns as functions on row indices, and
the list of derived column names that have been assigned onto the frame (in
assignment order).  Numeric cell values are embedded as exact rationals; the
IEEE special values produced by the code's divisions are kept explicitly:
`Option.none` stands for NaN (pandas' "undefined"), and `XQ.posInf`/`XQ.negInf`
stand for the infinities that float division by zero produces.  The two
operations whose results are irrational (the rolling standard deviation inside
the Bollinger bands, and the Pearson correlation) are embedded over `ℝ` with
`Real.sqrt`.  Python functions that mutate their dataframe argument are
embedded as state transformers returning `(state of caller's frame, result)`.
All embedded functions are total: evaluation never raises.
-/

/-- Extended rational value: a finite rational, `+inf`, or `-inf`.
NaN is represented one level up, as `Option.none` in `Option XQ`. -/
inductive XQ where
  | num (q : ℚ)
  | posInf
  | negInf
deriving DecidableEq

/-- IEEE-style division of two finite values, as numpy/pandas float division
behaves: `a / 0` is NaN when `a = 0`, `±inf` (sign of `a`) when `a ≠ 0`, and
an exact rational quotient otherwise. -/
def fdiv (a b : ℚ) : Option XQ :=
  if b = 0 then
    if a = 0 then none
    else if 0 < a then some XQ.posInf
    else some XQ.negInf
  else some (XQ.num (a / b))

/-- Negation on extended values. -/
def XQ.neg : XQ → XQ
  | num q => num (-q)
  | posInf => negInf
  | negInf => posInf

/-- IEEE-style addition on extended values; `inf + (-inf)` is NaN. -/
def xadd : XQ → XQ → Option XQ
  | .num a, .num b => some (.num (a + b))
  | .num _, .posInf => some .posInf
  | .num _, .negInf => some .negInf
  | .posInf, .num _ => some .posInf
  | .posInf, .posInf => some .posInf
  | .posInf, .negInf => none
  | .negInf, .num _ => some .negInf
  | .negInf, .negInf => some .negInf
  | .negInf, .posInf => none

/-- IEEE-style subtraction on extended values. -/
def xsub (a b : XQ) : Option XQ := xadd a b.neg

/-- IEEE-style division on extended values; `±inf / ±inf` is NaN, a finite
value over an infinity is `0`, an infinity over a finite value keeps the
(combined) sign. -/
def xdiv : XQ → XQ → Option XQ
  | .num a, .num b => fdiv a b
  | .num _, .posInf => some (.num 0)
  | .num _, .negInf => some (.num 0)
  | .posInf, .num b => some (if 0 ≤ b then .posInf else .negInf)
  | .negInf, .num b => some (if 0 ≤ b then .negInf else .posInf)
  | .posInf, .posInf => none
  | .posInf, .negInf => none
  | .negInf, .posInf => none
  | .negInf, .negInf => none

/-- A one-symbol OHLCV dataframe: `n` rows, the five base columns, and the
names of the derived columns assigned onto the frame, in assignment order.
The numeric content of every derived column is a pure function of the base
columns and is modelled by the standalone column functions below. -/
structure DF where
  n : ℕ
  Open : ℕ → ℚ
  High : ℕ → ℚ
  Low : ℕ → ℚ
  Close : ℕ → ℚ
  Volume : ℕ → ℚ
  cols : List String

/-- pandas `Series.rolling(window=w).mean()` on a fully defined series:
NaN before the trailing window fills, the window average afterwards. -/
def rollingMeanQ (w : ℕ) (x : ℕ → ℚ) (i : ℕ) : Option ℚ :=
  if i + 1 < w then none
  else some ((∑ k in Finset.range w, x (i + 1 - w + k)) / (w : ℚ))

/-- pandas `Series.rolling(window=w).std()` squared, i.e. the rolling sample
variance (`ddof = 1`, so the sum of squared deviations is divided by `w - 1`).
The standard deviation itself is `Real.sqrt` of this, taken where used. -/
def rollingVarQ (w : ℕ) (x : ℕ → ℚ) (i : ℕ) : Option ℚ :=
  if i + 1 < w then none
  else
    let m := (∑ k in Finset.range w, x (i + 1 - w + k)) / (w : ℚ)
    some ((∑ k in Finset.range w, (x (i + 1 - w + k) - m) ^ 2) / ((w : ℚ) - 1))

/-- pandas `Series.rolling(window=w).max()` on a fully defined series. -/
def rollingMaxQ (w : ℕ) (x : ℕ → ℚ) (i : ℕ) : Option ℚ :=
  if i + 1 < w then none
  else ((List.range w).map (fun k => x (i + 1 - w + k))).max?

/-- pandas `Series.rolling(window=w).min()` on a fully defined series. -/
def rollingMinQ (w : ℕ) (x : ℕ → ℚ) (i : ℕ) : Option ℚ :=
  if i + 1 < w then none
  else ((List.range w).map (fun k => x (i + 1 - w + k))).min?

/-- pandas `Series.diff()`: NaN at index 0, successive difference after. -/
def diffQ (x : ℕ → ℚ) : ℕ → Option ℚ
  | 0 => none
  | i + 1 => some (x (i + 1) - x i)

/-- pandas `delta.where(delta > 0, 0)`: keep positive entries, replace the
rest by 0.  A NaN entry fails the comparison and is also replaced by 0. -/
def posPartQ (delta : ℕ → Option ℚ) (i : ℕ) : ℚ :=
  match delta i with
  | some q => if 0 < q then q else 0
  | none => 0

/-- pandas `(-delta.where(delta < 0, 0))`: keep negative entries, replace the
rest (including a NaN entry, which fails the comparison) by 0, then negate. -/
def negPartQ (delta : ℕ → Option ℚ) (i : ℕ) : ℚ :=
  -(match delta i with
    | some q => if q < 0 then q else 0
    | none => 0)

/-- pandas `Series.ewm(span=s, adjust=False).mean()`: the recurrence
`y 0 = x 0`, `y (i+1) = (1 - a) * y i + a * x (i+1)` with `a = 2 / (s + 1)`. -/
def ewm (span : ℕ) (x : ℕ → ℚ) : ℕ → ℚ
  | 0 => x 0
  | i + 1 => (1 - 2 / ((span : ℚ) + 1)) * ewm span x i
      + (2 / ((span : ℚ) + 1)) * x (i + 1)

/-- The spec's description of the exponential moving average, written as a
closed form: exponential weighting with smoothing factor `a = 2/(span+1)`,
seeded from the first value with no bias adjustment, so the value at `i` is
`sum over k < i of a*(1-a)^k * x (i-k)`, plus `(1-a)^i * x 0` for the seed. -/
def specEMA (span : ℕ) (x : ℕ → ℚ) (i : ℕ) : ℚ :=
  (∑ k in Finset.range i,
      (2 / ((span : ℚ) + 1)) * (1 - 2 / ((span : ℚ) + 1)) ^ k * x (i - k))
    + (1 - 2 / ((span : ℚ) + 1)) ^ i * x 0

namespace PD

/-! Embedding of `src/price_data.py`. -/

/-- The local series `gain` of `calculate_rsi`:
`(delta.where(delta > 0, 0)).rolling(window=periods).mean()`. -/
def avgGain (data : DF) (periods : ℕ) : ℕ → Option ℚ :=
  rollingMeanQ periods (posPartQ (diffQ data.Close))

/-- The local series `loss` of `calculate_rsi`:
`(-delta.where(delta < 0, 0)).rolling(window=periods).mean()`. -/
def avgLoss (data : DF) (periods : ℕ) : ℕ → Option ℚ :=
  rollingMeanQ periods (negPartQ (diffQ data.Close))

/-- `calculate_rsi` (nested in `calculate_technical_indicators` of
`src/price_data.py`): `rs = gain / loss`, result `100 - (100 / (1 + rs))`,
with NaN propagation and the IEEE special values of float division. -/
def calculate_rsi (data : DF) (periods : ℕ) : ℕ → Option XQ := fun i =>
  match avgGain data periods i, avgLoss data periods i with
  | some g, some l =>
      (fdiv g l).bind fun rs =>
        (xadd (XQ.num 1) rs).bind fun s =>
          (xdiv (XQ.num 100) s).bind fun t =>
            xsub (XQ.num 100) t
  | _, _ => none

/-- `calculate_macd`: `exp1 = ewm(span=12)`, `exp2 = ewm(span=26)` of Close,
`macd = exp1 - exp2`, `signal = macd.ewm(span=9)`; returns `(macd, signal)`. -/
def calculate_macd (data : DF) : (ℕ → ℚ) × (ℕ → ℚ) :=
  (fun i => ewm 12 data.Close i - ewm 26 data.Close i,
   ewm 9 (fun i => ewm 12 data.Close i - ewm 26 data.Close i))

/-- `calculate_bollinger_bands`: rolling mean of Close over `window`, upper
band `ma + std * 2`, lower band `ma - std * 2`, where `std` is the rolling
sample standard deviation (square root of the rolling variance). -/
noncomputable def calculate_bollinger_bands (data : DF) (window : ℕ) :
    (ℕ → Option ℝ) × (ℕ → Option ℝ) :=
  (fun i =>
    match rollingMeanQ window data.Close i, rollingVarQ window data.Close i with
    | some m, some v => some ((m : ℝ) + Real.sqrt (v : ℝ) * 2)
    | _, _ => none,
   fun i =>
    match rollingMeanQ window data.Close i, rollingVarQ window data.Close i with
    | some m, some v => some ((m : ℝ) - Real.sqrt (v : ℝ) * 2)
    | _, _ => none)

/-- Column `Volume_MA`: `df['Volume'].rolling(window=20).mean()`. -/
def Volume_MA (data : DF) : ℕ → Option ℚ :=
  rollingMeanQ 20 data.Volume

/-- Column `Volume_Ratio`: `df['Volume'] / df['Volume_MA']` (float division,
NaN and infinities as in `fdiv`; NaN denominator propagates). -/
def Volume_Ratio (data : DF) : ℕ → Option XQ := fun i =>
  match Volume_MA data i with
  | some m => fdiv (data.Volume i) m
  | none => none

/-- Column `Price_Momentum`: `df['Close'].pct_change(periods=5)`, i.e.
`(Close i - Close (i-5)) / Close (i-5)` once five prior rows exist. -/
def Price_Momentum (data : DF) : ℕ → Option XQ := fun i =>
  if i < 5 then none
  else fdiv (data.Close i - data.Close (i - 5)) (data.Close (i - 5))

/-- Column `20_day_high`: `df['High'].rolling(window=20).max()`. -/
def day20_high (data : DF) : ℕ → Option ℚ :=
  rollingMaxQ 20 data.High

/-- Column `20_day_low`: `df['Low'].rolling(window=20).min()`. -/
def day20_low (data : DF) : ℕ → Option ℚ :=
  rollingMinQ 20 data.Low

/-- The ten derived columns that `calculate_technical_indicators` assigns,
in assignment order. -/
def addCols (df : DF) : DF :=
  { df with cols := df.cols ++
      ["RSI", "MACD", "Signal", "BB_Upper", "BB_Lower", "Volume_MA",
       "Volume_Ratio", "Price_Momentum", "20_day_high", "20_day_low"] }

/-- `calculate_technical_indicators` of `src/price_data.py` as a state
transformer on the caller's frame: `None`/empty input returns `None` and
leaves the frame alone; otherwise `df = df.copy()` is taken first, the ten
indicator columns are assigned onto the copy, and the copy is returned, so
the caller's frame is unchanged in every case.  The numeric content of each
assigned column is given by the column functions above. -/
def calculate_technical_indicators (odf : Option DF) : Option DF × Option DF :=
  match odf with
  | none => (none, none)
  | some df =>
    if df.n = 0 then (some df, none)
    else (some df, some (addCols df))

end PD

namespace UPD

/-! Embedding of `src/utils/price_data.py`. -/

/-- The local series `gain` of this file's module-level `calculate_rsi`. -/
def avgGain (data : DF) (periods : ℕ) : ℕ → Option ℚ :=
  rollingMeanQ periods (posPartQ (diffQ data.Close))

/-- The local series `loss` of this file's module-level `calculate_rsi`. -/
def avgLoss (data : DF) (periods : ℕ) : ℕ → Option ℚ :=
  rollingMeanQ periods (negPartQ (diffQ data.Close))

/-- Module-level `calculate_rsi` of `src/utils/price_data.py`:
`rs = gain / loss`, `rsi = 100 - (100 / (1 + rs))`. -/
def calculate_rsi (data : DF) (periods : ℕ) : ℕ → Option XQ := fun i =>
  match avgGain data periods i, avgLoss data periods i with
  | some g, some l =>
      (fdiv g l).bind fun rs =>
        (xadd (XQ.num 1) rs).bind fun s =>
          (xdiv (XQ.num 100) s).bind fun t =>
            xsub (XQ.num 100) t
  | _, _ => none

/-- `calculate_macd` nested in this file's `calculate_technical_indicators`. -/
def calculate_macd (data : DF) : (ℕ → ℚ) × (ℕ → ℚ) :=
  (fun i => ewm 12 data.Close i - ewm 26 data.Close i,
   ewm 9 (fun i => ewm 12 data.Close i - ewm 26 data.Close i))

/-- `calculate_bollinger_bands` nested in this file's
`calculate_technical_indicators`. -/
noncomputable def calculate_bollinger_bands (data : DF) (window : ℕ) :
    (ℕ → Option ℝ) × (ℕ → Option ℝ) :=
  (fun i =>
    match rollingMeanQ window data.Close i, rollingVarQ window data.Close i with
    | some m, some v => some ((m : ℝ) + Real.sqrt (v : ℝ) * 2)
    | _, _ => none,
   fun i =>
    match rollingMeanQ window data.Close i, rollingVarQ window data.Close i with
    | some m, some v => some ((m : ℝ) - Real.sqrt (v : ℝ) * 2)
    | _, _ => none)

/-- Column `Volume_MA` of this file. -/
def Volume_MA (data : DF) : ℕ → Option ℚ :=
  rollingMeanQ 20 data.Volume

/-- Column `Volume_Ratio` of this file. -/
def Volume_Ratio (data : DF) : ℕ → Option XQ := fun i =>
  match Volume_MA data i with
  | some m => fdiv (data.Volume i) m
  | none => none

/-- Column `Price_Momentum` of this file. -/
def Price_Momentum (data : DF) : ℕ → Option XQ := fun i =>
  if i < 5 then none
  else fdiv (data.Close i - data.Close (i - 5)) (data.Close (i - 5))

/-- Column `20_day_high` of this file. -/
def day20_high (data : DF) : ℕ → Option ℚ :=
  rollingMaxQ 20 data.High

/-- Column `20_day_low` of this file. -/
def day20_low (data : DF) : ℕ → Option ℚ :=
  rollingMinQ 20 data.Low

/-- The ten derived columns assigned by this file's
`calculate_technical_indicators`, in assignment order. -/
def addCols (df : DF) : DF :=
  { df with cols := df.cols ++
      ["RSI", "MACD", "Signal", "BB_Upper", "BB_Lower", "Volume_MA",
       "Volume_Ratio", "Price_Momentum", "20_day_high", "20_day_low"] }

/-- `calculate_technical_indicators` of `src/utils/price_data.py` as a state
transformer on the caller's frame.  Unlike the `src/price_data.py` version it
takes no copy: each `df[...] = ...` assignment lands on the caller's frame,
which therefore carries the ten derived columns after the call; the returned
frame is that same mutated frame. -/
def calculate_technical_indicators (odf : Option DF) : Option DF × Option DF :=
  match odf with
  | none => (none, none)
  | some df =>
    if df.n = 0 then (some df, none)
    else (some (addCols df), some (addCols df))

end UPD

/-! Embedding of `src/utils/volume_analysis.py`. -/

/-- The result dictionary built by `analyze_volume_patterns`. -/
structure VolumeAnalysis where
  volume_trend : Option XQ
  volume_spikes : ℕ
  price_volume_correlation : Option ℝ
  volume_consistency : Option ℝ
  buying_pressure : Option XQ

/-- `df['Volume'].mean()` (meaningful for `n ≥ 1`, which the caller checks). -/
def volMean (df : DF) : ℚ :=
  (∑ i in Finset.range df.n, df.Volume i) / (df.n : ℚ)

/-- `analysis['volume_trend']`: `df['Volume'].tail(5).mean()` (the last
`min 5 n` rows) divided, as floats, by `df['Volume'].mean()`. -/
def volumeTrend (df : DF) : Option XQ :=
  fdiv ((∑ i in Finset.Ico (df.n - min 5 df.n) df.n, df.Volume i)
          / ((min 5 df.n : ℕ) : ℚ))
       (volMean df)

/-- `df['Volume'].std()`: sample standard deviation (`ddof = 1`), NaN when
fewer than two rows exist. -/
noncomputable def volStd (df : DF) : Option ℝ :=
  if df.n ≤ 1 then none
  else some (Real.sqrt
    ((∑ i in Finset.range df.n, ((df.Volume i : ℝ) - (volMean df : ℝ)) ^ 2)
      / ((df.n : ℝ) - 1)))

open Classical in
/-- `analysis['volume_spikes']`: `len(df[df['Volume'] > volume_mean +
2 * volume_std])`.  When the standard deviation is NaN the comparison is
false at every row, so the count is 0. -/
noncomputable def volumeSpikes (df : DF) : ℕ :=
  match volStd df with
  | none => 0
  | some s =>
      ((Finset.range df.n).filter
        (fun i => (volMean df : ℝ) + 2 * s < (df.Volume i : ℝ))).card

/-- `analysis['price_volume_correlation']`: `df['Close'].corr(df['Volume'])`,
the Pearson correlation of Close and Volume; NaN when fewer than two rows
exist or either series has zero variance. -/
noncomputable def priceVolumeCorr (df : DF) : Option ℝ :=
  if df.n < 2 then none
  else
    let mc : ℚ := (∑ i in Finset.range df.n, df.Close i) / (df.n : ℚ)
    let den : ℝ :=
      Real.sqrt (∑ i in Finset.range df.n, ((df.Close i : ℝ) - (mc : ℝ)) ^ 2) *
      Real.sqrt (∑ i in Finset.range df.n,
        ((df.Volume i : ℝ) - (volMean df : ℝ)) ^ 2)
    if den = 0 then none
    else some ((∑ i in Finset.range df.n,
      ((df.Close i : ℝ) - (mc : ℝ)) * ((df.Volume i : ℝ) - (volMean df : ℝ)))
        / den)

/-- `analysis['volume_consistency']`: `volume_std / volume_mean`.  NaN std
propagates; a zero mean under a nonzero std gives an infinite float, which
this real-valued embedding also files under "no finite value". -/
noncomputable def volumeConsistency (df : DF) : Option ℝ :=
  match volStd df with
  | none => none
  | some s => if volMean df = 0 then none else some (s / (volMean df : ℝ))

/-- `up_volume`: `df[df['Price_Change'] > 0]['Volume'].sum()`, where
`Price_Change = Close - Open`. -/
def upVolume (df : DF) : ℚ :=
  ∑ i in (Finset.range df.n).filter (fun i => 0 < df.Close i - df.Open i),
    df.Volume i

/-- `down_volume`: `df[df['Price_Change'] < 0]['Volume'].sum()`. -/
def downVolume (df : DF) : ℚ :=
  ∑ i in (Finset.range df.n).filter (fun i => df.Close i - df.Open i < 0),
    df.Volume i

/-- `analyze_volume_patterns` as a state transformer on the caller's frame:
`None`/empty input returns `None` with the frame untouched; otherwise the
assignment `df['Price_Change'] = df['Close'] - df['Open']` adds a column to
the caller's frame, and the analysis dictionary is returned. -/
noncomputable def analyze_volume_patterns (odf : Option DF) :
    Option DF × Option VolumeAnalysis :=
  match odf with
  | none => (none, none)
  | some df =>
    if df.n = 0 then (some df, none)
    else
      (some { df with cols := df.cols ++ ["Price_Change"] },
       some { volume_trend := volumeTrend df
              volume_spikes := volumeSpikes df
              price_volume_correlation := priceVolumeCorr df
              volume_consistency := volumeConsistency df
              buying_pressure :=
                fdiv (upVolume df) (upVolume df + downVolume df) })

/-! Embedding of `src/market_analysis.py`. -/

/-- `calculate_market_score`: the correlation sub-score starts at the neutral
0.5, gains 0.2 when a beta is available and `beta < 0.8`, loses 0.2 when
`beta > 1.2`; the result is the weighted sum with the fixed weights
sentiment 0.3, technical 0.3, volume 0.2, correlation 0.2.  The
`correlation_data` dictionary is modelled as an optional beta (`None` both
for a missing dictionary and for one without a `beta` key). -/
def calculate_market_score (sentiment_score technical_score volume_score : ℚ)
    (correlation_data : Option ℚ) : ℚ :=
  let correlation_score : ℚ :=
    match correlation_data with
    | none => 0.5
    | some beta =>
        if beta < 0.8 then 0.5 + 0.2
        else if beta > 1.2 then 0.5 - 0.2
        else 0.5
  sentiment_score * 0.3 + technical_score * 0.3 + volume_score * 0.2
    + correlation_score * 0.2

/-! Helper lemmas about the rolling primitives. -/

lemma rollingMeanQ_none (w : ℕ) (x : ℕ → ℚ) (i : ℕ) (h : i + 1 < w) :
    rollingMeanQ w x i = none := by
  simp [rollingMeanQ, h]

lemma rollingMeanQ_filled (w : ℕ) (x : ℕ → ℚ) (i : ℕ) (h : w ≤ i + 1) :
    rollingMeanQ w x i =
      some ((∑ k in Finset.range w, x (i + 1 - w + k)) / (w : ℚ)) := by
  simp [rollingMeanQ, Nat.not_lt.mpr h]

lemma rollingVarQ_none (w : ℕ) (x : ℕ → ℚ) (i : ℕ) (h : i + 1 < w) :
    rollingVarQ w x i = none := by
  simp [rollingVarQ, h]

lemma rollingVarQ_filled (w : ℕ) (x : ℕ → ℚ) (i : ℕ) (h : w ≤ i + 1) :
    rollingVarQ w x i =
      some ((∑ k in Finset.range w,
        (x (i + 1 - w + k)
          - (∑ j in Finset.range w, x (i + 1 - w + j)) / (w : ℚ)) ^ 2)
        / ((w : ℚ) - 1)) := by
  simp [rollingVarQ, Nat.not_lt.mpr h]

lemma posPartQ_nonneg (delta : ℕ → Option ℚ) (i : ℕ) : 0 ≤ posPartQ delta i := by
  unfold posPartQ
  cases delta i with
  | none => exact le_refl 0
  | some q =>
    by_cases h : 0 < q
    · simpa [h] using h.le
    · simp [h]

lemma negPartQ_nonneg (delta : ℕ → Option ℚ) (i : ℕ) : 0 ≤ negPartQ delta i := by
  unfold negPartQ
  cases delta i with
  | none => simp
  | some q =>
    by_cases h : q < 0
    · simp only [h, if_pos]
      linarith
    · simp [h]

lemma rollingMeanQ_some_nonneg (w : ℕ) (x : ℕ → ℚ) (i : ℕ)
    (hx : ∀ j, 0 ≤ x j) (g : ℚ) (hg : rollingMeanQ w x i = some g) : 0 ≤ g := by
  unfold rollingMeanQ at hg
  split at hg
  · exact absurd hg (by simp)
  · have hv := Option.some.inj hg
    rw [← hv]
    exact div_nonneg (Finset.sum_nonneg fun j _ => hx _) (Nat.cast_nonneg w)

lemma fdiv_eq_none_iff (a b : ℚ) : fdiv a b = none ↔ b = 0 ∧ a = 0 := by
  unfold fdiv
  split_ifs <;> simp_all

/-- The correlation sub-score exactly as claim C3 words it: 0.5 when no beta
is available, 0.7 when `beta < 0.8`, 0.3 when `beta > 1.2`, and 0.5
otherwise, including at exactly 0.8 and 1.2. -/
def claimCorrScore (b : Option ℚ) : ℚ :=
  match b with
  | none => 0.5
  | some beta =>
      if beta < 0.8 then 0.7
      else if 1.2 < beta then 0.3
      else 0.5

/-- Claim C3: `calculate_market_score` is the fixed-weight blend
`0.3*sentiment + 0.3*technical + 0.2*volume + 0.2*correlation_score`, where
the correlation sub-score is 0.5 with no beta, 0.7 for `beta < 0.8`, 0.3 for
`beta > 1.2`, and 0.5 otherwise — in particular 0.5 at exactly 0.8 and 1.2. -/
theorem market_score_formula (s t v : ℚ) (b : Option ℚ) :
    calculate_market_score s t v b =
      0.3 * s + 0.3 * t + 0.2 * v + 0.2 * claimCorrScore b := by
  cases b with
  | none =>
    show _ * (0.3 : ℚ) + _ + _ + _ = _
    simp only [claimCorrScore]
    ring
  | some beta =>
    show _ * (0.3 : ℚ) + _ + _
        + (if beta < 0.8 then (0.5 : ℚ) + 0.2
           else if beta > 1.2 then (0.5 : ℚ) - 0.2 else (0.5 : ℚ)) * 0.2 = _
    simp only [claimCorrScore]
    by_cases h1 : beta < 0.8
    · rw [if_pos h1, if_pos h1]
      ring
    · by_cases h2 : beta > 1.2
      · rw [if_neg h1, if_neg h1, if_pos h2, if_pos h2]
        ring
      · rw [if_neg h1, if_neg h1, if_neg h2, if_neg h2]
        ring

lemma ewm_eq_specEMA (span : ℕ) (x : ℕ → ℚ) :
    ∀ i, ewm span x i = specEMA span x i := by
  intro i
  induction i with
  | zero => simp [ewm, specEMA]
  | succ i ih =>
    have hsum :
        (∑ k in Finset.range i,
          (2 / ((span : ℚ) + 1)) * (1 - 2 / ((span : ℚ) + 1)) ^ (k + 1)
            * x (i + 1 - (k + 1)))
          = (1 - 2 / ((span : ℚ) + 1)) *
            ∑ k in Finset.range i,
              (2 / ((span : ℚ) + 1)) * (1 - 2 / ((span : ℚ) + 1)) ^ k
                * x (i - k) := by
      rw [Finset.mul_sum]
      refine Finset.sum_congr rfl (fun k _ => ?_)
      have hk : i + 1 - (k + 1) = i - k := by omega
      rw [hk, pow_succ]
      ring
    rw [ewm, ih, specEMA, specEMA, Finset.sum_range_succ', hsum]
    simp only [pow_zero, Nat.sub_zero, one_mul]
    ring

/-- Claim C8: the MACD column is the span-12 EMA minus the span-26 EMA of
Close, each EMA being the exponentially weighted mean with smoothing factor
`2/(span+1)` seeded from the first value with no bias adjustment (written
here as the closed form `specEMA`), and Signal is the span-9 EMA of the MACD
series computed the same way.  Both implementations are covered. -/
theorem macd_signal_ema (d : DF) (i : ℕ) :
    (PD.calculate_macd d).1 i = specEMA 12 d.Close i - specEMA 26 d.Close i ∧
    (PD.calculate_macd d).2 i = specEMA 9 ((PD.calculate_macd d).1) i ∧
    (UPD.calculate_macd d).1 i = specEMA 12 d.Close i - specEMA 26 d.Close i ∧
    (UPD.calculate_macd d).2 i = specEMA 9 ((UPD.calculate_macd d).1) i := by
  have h1 : (PD.calculate_macd d).1 i
      = specEMA 12 d.Close i - specEMA 26 d.Close i := by
    show ewm 12 d.Close i - ewm 26 d.Close i = _
    rw [ewm_eq_specEMA, ewm_eq_specEMA]
  have h2 : (PD.calculate_macd d).2 i = specEMA 9 ((PD.calculate_macd d).1) i :=
    ewm_eq_specEMA 9 _ i
  exact ⟨h1, h2, h1, h2⟩

/-- Claim C10: the `src/price_data.py` and `src/utils/price_data.py`
implementations agree on every derived indicator column, and on the returned
frame of `calculate_technical_indicators`. -/
theorem implementations_agree (d : DF) (i : ℕ) (od : Option DF) :
    PD.calculate_rsi d 14 i = UPD.calculate_rsi d 14 i ∧
    (PD.calculate_macd d).1 i = (UPD.calculate_macd d).1 i ∧
    (PD.calculate_macd d).2 i = (UPD.calculate_macd d).2 i ∧
    (PD.calculate_bollinger_bands d 20).1 i
      = (UPD.calculate_bollinger_bands d 20).1 i ∧
    (PD.calculate_bollinger_bands d 20).2 i
      = (UPD.calculate_bollinger_bands d 20).2 i ∧
    PD.Volume_MA d i = UPD.Volume_MA d i ∧
    PD.Volume_Ratio d i = UPD.Volume_Ratio d i ∧
    PD.Price_Momentum d i = UPD.Price_Momentum d i ∧
    PD.day20_high d i = UPD.day20_high d i ∧
    PD.day20_low d i = UPD.day20_low d i ∧
    (PD.calculate_technical_indicators od).2
      = (UPD.calculate_technical_indicators od).2 := by
  refine ⟨rfl, rfl, rfl, rfl, rfl, rfl, rfl, rfl, rfl, rfl, ?_⟩
  cases od with
  | none => rfl
  | some df =>
    by_cases h : df.n = 0 <;>
      simp [PD.calculate_technical_indicators,
        UPD.calculate_technical_indicators, h, PD.addCols, UPD.addCols]

/-- Claim C2 (amended): `calculate_technical_indicators` of
`src/price_data.py` leaves the caller's frame unchanged (it assigns onto a
copy); the `src/utils/price_data.py` version and `analyze_volume_patterns`
assign their derived columns onto the caller's frame in place, leaving the
row count and the base OHLCV columns unchanged but appending columns. -/
theorem frame_effects (od : Option DF) (d : DF) :
    (PD.calculate_technical_indicators od).1 = od ∧
    (UPD.calculate_technical_indicators (some d)).1 =
      some (if d.n = 0 then d else UPD.addCols d) ∧
    (analyze_volume_patterns (some d)).1 =
      some (if d.n = 0 then d
            else { d with cols := d.cols ++ ["Price_Change"] }) := by
  refine ⟨?_, ?_, ?_⟩
  · cases od with
    | none => rfl
    | some df => by_cases h : df.n = 0 <;> simp [PD.calculate_technical_indicators, h]
  · by_cases h : d.n = 0 <;> simp [UPD.calculate_technical_indicators, h]
  · by_cases h : d.n = 0 <;> simp [analyze_volume_patterns, h]

/-- A one-row frame used to exhibit the in-place mutation. -/
def exC2 : DF := ⟨1, fun _ => 1, fun _ => 2, fun _ => 0, fun _ => 1, fun _ => 3, []⟩

/-- Claim C2 counterexample: on a concrete one-row frame, the caller's frame
after `src/utils/price_data.py`'s `calculate_technical_indicators` is not the
frame that was passed in — it has gained ten derived columns. -/
theorem frame_effects_cex :
    (UPD.calculate_technical_indicators (some exC2)).1 ≠ some exC2 := by
  intro h
  have h2 := congrArg (Option.map (fun df => (DF.cols df).length)) h
  simp [UPD.calculate_technical_indicators, UPD.addCols, exC2] at h2

/-- Evaluation of the `100 - (100 / (1 + gain / loss))` chain of
`calculate_rsi` for nonnegative average gain and loss: NaN exactly when both
are 0, the value 100 (through `+inf`) when only the loss is 0, and the finite
rational value otherwise. -/
lemma rsi_chain (g l : ℚ) (hg : 0 ≤ g) (hl : 0 ≤ l) :
    ((fdiv g l).bind fun rs => (xadd (XQ.num 1) rs).bind fun s =>
      (xdiv (XQ.num 100) s).bind fun t => xsub (XQ.num 100) t)
    = if l = 0 then (if g = 0 then none else some (XQ.num 100))
      else some (XQ.num (100 - 100 / (1 + g / l))) := by
  by_cases hl0 : l = 0
  · by_cases hg0 : g = 0
    · simp [fdiv, hl0, hg0]
    · have hgpos : 0 < g := lt_of_le_of_ne hg (Ne.symm hg0)
      simp only [fdiv, hl0, hg0, hgpos, if_pos, if_neg, if_true, if_false]
      norm_num [xadd, xdiv, xsub, XQ.neg]
  · have hlpos : 0 < l := lt_of_le_of_ne hl (Ne.symm hl0)
    have hrs : 0 ≤ g / l := div_nonneg hg hl
    have h1 : (0 : ℚ) < 1 + g / l := by linarith
    simp [fdiv, hl0, h1.ne', xadd, xdiv, xsub, XQ.neg, sub_eq_add_neg]

lemma avgGain_filled (d : DF) (i : ℕ) (hi : 13 ≤ i) :
    ∃ g, PD.avgGain d 14 i = some g ∧ 0 ≤ g := by
  have h := rollingMeanQ_filled 14 (posPartQ (diffQ d.Close)) i (by omega)
  refine ⟨_, h, ?_⟩
  exact rollingMeanQ_some_nonneg 14 _ i (posPartQ_nonneg _) _ h

lemma avgLoss_filled (d : DF) (i : ℕ) (hi : 13 ≤ i) :
    ∃ l, PD.avgLoss d 14 i = some l ∧ 0 ≤ l := by
  have h := rollingMeanQ_filled 14 (negPartQ (diffQ d.Close)) i (by omega)
  refine ⟨_, h, ?_⟩
  exact rollingMeanQ_some_nonneg 14 _ i (negPartQ_nonneg _) _ h

lemma calculate_rsi_eval (d : DF) (i : ℕ) (g l : ℚ)
    (hg : PD.avgGain d 14 i = some g) (hl : PD.avgLoss d 14 i = some l)
    (hg0 : 0 ≤ g) (hl0 : 0 ≤ l) :
    PD.calculate_rsi d 14 i
      = if l = 0 then (if g = 0 then none else some (XQ.num 100))
        else some (XQ.num (100 - 100 / (1 + g / l))) := by
  show (match PD.avgGain d 14 i, PD.avgLoss d 14 i with
    | some g, some l =>
        (fdiv g l).bind fun rs =>
          (xadd (XQ.num 1) rs).bind fun s =>
            (xdiv (XQ.num 100) s).bind fun t =>
              xsub (XQ.num 100) t
    | _, _ => none) = _
  rw [hg, hl]
  exact rsi_chain g l hg0 hl0

/-- Claim C5: wherever the 14-day window is filled and the rolling average
loss is strictly positive, the RSI of both implementations is a finite value
in `[0, 100]`. -/
theorem rsi_bounded (d : DF) (i : ℕ) (l : ℚ) (hi : 13 ≤ i)
    (hl : PD.avgLoss d 14 i = some l) (hlpos : 0 < l) :
    ∃ q : ℚ, PD.calculate_rsi d 14 i = some (XQ.num q) ∧
      UPD.calculate_rsi d 14 i = some (XQ.num q) ∧ 0 ≤ q ∧ q ≤ 100 := by
  obtain ⟨g, hg, hgnn⟩ := avgGain_filled d i hi
  have hev := calculate_rsi_eval d i g l hg hl hgnn hlpos.le
  rw [if_neg hlpos.ne'] at hev
  have hq : (0 : ℚ) < 1 + g / l := by
    have := div_nonneg hgnn hlpos.le
    linarith
  refine ⟨100 - 100 / (1 + g / l), hev, hev, ?_, ?_⟩
  · have hle : 100 / (1 + g / l) ≤ 100 := by
      have h1 : (1 : ℚ) ≤ 1 + g / l := by
        have := div_nonneg hgnn hlpos.le
        linarith
      exact div_le_self (by norm_num) h1
    linarith
  · have hpos : 0 ≤ 100 / (1 + g / l) := by positivity
    linarith

lemma bb_aux (m v : ℚ) :
    ((m : ℝ) - Real.sqrt (v : ℝ) * 2 ≤ (m : ℝ)) ∧
    ((m : ℝ) ≤ (m : ℝ) + Real.sqrt (v : ℝ) * 2) := by
  have h := Real.sqrt_nonneg ((v : ℚ) : ℝ)
  constructor <;> linarith

/-- Claim C4: on a frame with at least 20 rows, at every index whose 20-row
trailing window is filled the Bollinger bands of both implementations are
defined, they equal the rolling mean plus/minus twice the rolling standard
deviation, and the upper band dominates the rolling mean, which dominates the
lower band. -/
theorem bollinger_order (d : DF) (i : ℕ) (_hrows : 20 ≤ d.n) (hi : 19 ≤ i)
    (_hin : i < d.n) :
    ∃ m v : ℚ, rollingMeanQ 20 d.Close i = some m ∧
      rollingVarQ 20 d.Close i = some v ∧
      (PD.calculate_bollinger_bands d 20).1 i
        = some ((m : ℝ) + Real.sqrt (v : ℝ) * 2) ∧
      (PD.calculate_bollinger_bands d 20).2 i
        = some ((m : ℝ) - Real.sqrt (v : ℝ) * 2) ∧
      (UPD.calculate_bollinger_bands d 20).1 i
        = some ((m : ℝ) + Real.sqrt (v : ℝ) * 2) ∧
      (UPD.calculate_bollinger_bands d 20).2 i
        = some ((m : ℝ) - Real.sqrt (v : ℝ) * 2) ∧
      (m : ℝ) - Real.sqrt (v : ℝ) * 2 ≤ (m : ℝ) ∧
      (m : ℝ) ≤ (m : ℝ) + Real.sqrt (v : ℝ) * 2 := by
  obtain ⟨m, hm⟩ : ∃ m, rollingMeanQ 20 d.Close i = some m :=
    ⟨_, rollingMeanQ_filled 20 d.Close i (by omega)⟩
  obtain ⟨v, hv⟩ : ∃ v, rollingVarQ 20 d.Close i = some v :=
    ⟨_, rollingVarQ_filled 20 d.Close i (by omega)⟩
  have hu : (PD.calculate_bollinger_bands d 20).1 i
      = some ((m : ℝ) + Real.sqrt (v : ℝ) * 2) := by
    show (match rollingMeanQ 20 d.Close i, rollingVarQ 20 d.Close i with
      | some m, some v => some ((m : ℝ) + Real.sqrt (v : ℝ) * 2)
      | _, _ => none) = _
    rw [hm, hv]
  have hl : (PD.calculate_bollinger_bands d 20).2 i
      = some ((m : ℝ) - Real.sqrt (v : ℝ) * 2) := by
    show (match rollingMeanQ 20 d.Close i, rollingVarQ 20 d.Close i with
      | some m, some v => some ((m : ℝ) - Real.sqrt (v : ℝ) * 2)
      | _, _ => none) = _
    rw [hm, hv]
  exact ⟨m, v, hm, hv, hu, hl, hu, hl, (bb_aux m v).1, (bb_aux m v).2⟩

/-- A 20-row frame with linearly rising Close, used to witness claim C4. -/
def exC4 : DF :=
  ⟨20, fun _ => 1, fun _ => 1, fun _ => 1, fun i => (i : ℚ), fun _ => 1, []⟩

/-- Claim C4 witness: the band ordering at the first filled index of the
20-row frame `exC4`. -/
theorem bollinger_order_witness :
    ∃ m v : ℚ, rollingMeanQ 20 exC4.Close 19 = some m ∧
      rollingVarQ 20 exC4.Close 19 = some v ∧
      (PD.calculate_bollinger_bands exC4 20).1 19
        = some ((m : ℝ) + Real.sqrt (v : ℝ) * 2) ∧
      (PD.calculate_bollinger_bands exC4 20).2 19
        = some ((m : ℝ) - Real.sqrt (v : ℝ) * 2) ∧
      (UPD.calculate_bollinger_bands exC4 20).1 19
        = some ((m : ℝ) + Real.sqrt (v : ℝ) * 2) ∧
      (UPD.calculate_bollinger_bands exC4 20).2 19
        = some ((m : ℝ) - Real.sqrt (v : ℝ) * 2) ∧
      (m : ℝ) - Real.sqrt (v : ℝ) * 2 ≤ (m : ℝ) ∧
      (m : ℝ) ≤ (m : ℝ) + Real.sqrt (v : ℝ) * 2 :=
  bollinger_order exC4 19 (Nat.le_refl 20) (by omega) (Nat.lt_succ_self 19)

/-- A frame with 15 sessions of strictly decreasing Close, so that the
average loss over the filled 14-day window is strictly positive. -/
def wC5 : DF :=
  ⟨15, fun _ => 1, fun _ => 1, fun _ => 1, fun i => 100 - (i : ℚ), fun _ => 1, []⟩

/-- Claim C5 witness: on the falling-Close frame `wC5` at index 13 the
average loss is positive and the RSI is a finite value in `[0, 100]`. -/
theorem rsi_bounded_witness :
    ∃ q : ℚ, PD.calculate_rsi wC5 14 13 = some (XQ.num q) ∧
      UPD.calculate_rsi wC5 14 13 = some (XQ.num q) ∧ 0 ≤ q ∧ q ≤ 100 := by
  have hL := rollingMeanQ_filled 14 (negPartQ (diffQ wC5.Close)) 13 (by omega)
  have hpos : 0 < (∑ k in Finset.range 14,
      negPartQ (diffQ wC5.Close) (13 + 1 - 14 + k)) / ((14 : ℕ) : ℚ) := by
    apply div_pos
    · apply Finset.sum_pos'
      · exact fun j _ => negPartQ_nonneg _ _
      · refine ⟨1, Finset.mem_range.mpr (by omega), ?_⟩
        show 0 < negPartQ (diffQ wC5.Close) 1
        have hc : (100 - ((1 : ℕ) : ℚ)) - (100 - ((0 : ℕ) : ℚ)) < 0 := by
          push_cast
          norm_num
        simp [negPartQ, diffQ, wC5, hc]
    · norm_num
  exact rsi_bounded wC5 13 _ (by omega) hL hpos

/-- A frame with 15 sessions of constant Close, so that both the average
gain and the average loss over the filled 14-day window are 0. -/
def wC1 : DF := ⟨15, fun _ => 1, fun _ => 1, fun _ => 1, fun _ => 7, fun _ => 1, []⟩

/-- A frame with 15 sessions of strictly increasing Close, so that the
average loss over the filled 14-day window is 0 but the average gain is
positive. -/
def cexC1 : DF :=
  ⟨15, fun _ => 1, fun _ => 1, fun _ => 1, fun i => (i : ℚ), fun _ => 1, []⟩

/-- Claim C1 (amended): where the 14-day window is filled and the rolling
average loss is 0, the RSI is NaN (undefined) exactly when the rolling
average gain is also 0; when the average gain is nonzero the float division
yields `+inf` and the RSI evaluates to the defined value 100.  Either way the
computation is total — it never raises. -/
theorem rsi_zero_loss (d : DF) (i : ℕ) (g : ℚ) (_hi : 13 ≤ i)
    (hg : PD.avgGain d 14 i = some g)
    (hl : PD.avgLoss d 14 i = some 0) :
    PD.calculate_rsi d 14 i
        = (if g = 0 then none else some (XQ.num 100)) ∧
    UPD.calculate_rsi d 14 i
        = (if g = 0 then none else some (XQ.num 100)) := by
  have hgnn : 0 ≤ g :=
    rollingMeanQ_some_nonneg 14 _ i (posPartQ_nonneg _) _ hg
  have hev := calculate_rsi_eval d i g 0 hg hl hgnn le_rfl
  rw [if_pos rfl] at hev
  exact ⟨hev, hev⟩

lemma rollingMeanQ_zero (w : ℕ) (x : ℕ → ℚ) (hx : ∀ j, x j = 0) (i : ℕ)
    (h : w ≤ i + 1) : rollingMeanQ w x i = some 0 := by
  rw [rollingMeanQ_filled w x i h]
  simp [hx]

lemma negPart_diff_mono (x : ℕ → ℚ) (hx : ∀ j, x j ≤ x (j + 1)) (k : ℕ) :
    negPartQ (diffQ x) k = 0 := by
  cases k with
  | zero => simp [negPartQ, diffQ]
  | succ j =>
    have hc : ¬ (x (j + 1) - x j < 0) := by
      have := hx j
      linarith
    simp [negPartQ, diffQ, hc]

lemma posPart_diff_anti (x : ℕ → ℚ) (hx : ∀ j, x (j + 1) ≤ x j) (k : ℕ) :
    posPartQ (diffQ x) k = 0 := by
  cases k with
  | zero => simp [posPartQ, diffQ]
  | succ j =>
    have hc : ¬ (0 < x (j + 1) - x j) := by
      have := hx j
      linarith
    simp [posPartQ, diffQ, hc]

/-- Claim C1 witness: on the constant-Close frame `wC1` at index 13 the
average gain is 0, the average loss is 0, and the RSI is NaN. -/
theorem rsi_zero_loss_witness :
    PD.calculate_rsi wC1 14 13 = (if (0 : ℚ) = 0 then none else some (XQ.num 100)) ∧
    UPD.calculate_rsi wC1 14 13 = (if (0 : ℚ) = 0 then none else some (XQ.num 100)) :=
  rsi_zero_loss wC1 13 0 (by omega)
    (rollingMeanQ_zero 14 _ (posPart_diff_anti _ (fun j => le_refl 7)) 13 (by omega))
    (rollingMeanQ_zero 14 _ (negPart_diff_mono _ (fun j => le_refl 7)) 13 (by omega))

/-- Claim C1 counterexample: on the rising-Close frame `cexC1` at index 13
the 14-day window is filled and the rolling average loss is 0, yet the RSI
is the defined number 100, not undefined — the claim as stated is false. -/
theorem rsi_zero_loss_cex :
    PD.avgLoss cexC1 14 13 = some 0 ∧
    PD.calculate_rsi cexC1 14 13 = some (XQ.num 100) ∧
    UPD.calculate_rsi cexC1 14 13 = some (XQ.num 100) := by
  have hmono : ∀ j : ℕ, cexC1.Close j ≤ cexC1.Close (j + 1) := by
    intro j
    show (j : ℚ) ≤ ((j + 1 : ℕ) : ℚ)
    push_cast
    linarith
  have hL : PD.avgLoss cexC1 14 13 = some 0 :=
    rollingMeanQ_zero 14 _ (negPart_diff_mono _ hmono) 13 (by omega)
  have hG := rollingMeanQ_filled 14 (posPartQ (diffQ cexC1.Close)) 13 (by omega)
  have hpos : 0 < (∑ k in Finset.range 14,
      posPartQ (diffQ cexC1.Close) (13 + 1 - 14 + k)) / ((14 : ℕ) : ℚ) := by
    apply div_pos
    · apply Finset.sum_pos'
      · exact fun j _ => posPartQ_nonneg _ _
      · refine ⟨1, Finset.mem_range.mpr (by omega), ?_⟩
        show 0 < posPartQ (diffQ cexC1.Close) 1
        have h1 : ((1 : ℕ) : ℚ) - ((0 : ℕ) : ℚ) = 1 := by push_cast; ring
        simp [posPartQ, diffQ, cexC1]
    · norm_num
  have hPD : PD.calculate_rsi cexC1 14 13 = some (XQ.num 100) := by
    rw [calculate_rsi_eval cexC1 13 _ 0 hG hL hpos.le le_rfl]
    rw [if_pos rfl, if_neg hpos.ne']
  exact ⟨hL, hPD, hPD⟩

lemma calculate_rsi_unfilled (d : DF) (i : ℕ) (h : i < 13) :
    PD.calculate_rsi d 14 i = none := by
  show (match PD.avgGain d 14 i, PD.avgLoss d 14 i with
    | some g, some l =>
        (fdiv g l).bind fun rs =>
          (xadd (XQ.num 1) rs).bind fun s =>
            (xdiv (XQ.num 100) s).bind fun t =>
              xsub (XQ.num 100) t
    | _, _ => none) = none
  have hg : PD.avgGain d 14 i = none := rollingMeanQ_none 14 _ i (by omega)
  have hl : PD.avgLoss d 14 i = none := rollingMeanQ_none 14 _ i (by omega)
  rw [hg, hl]

lemma bb_fst_none_iff (d : DF) (i : ℕ) :
    (PD.calculate_bollinger_bands d 20).1 i = none ↔ i < 19 := by
  show (match rollingMeanQ 20 d.Close i, rollingVarQ 20 d.Close i with
    | some m, some v => some ((m : ℝ) + Real.sqrt (v : ℝ) * 2)
    | _, _ => none) = none ↔ i < 19
  by_cases h : i < 19
  · rw [rollingMeanQ_none 20 _ i (by omega), rollingVarQ_none 20 _ i (by omega)]
    simp [h]
  · rw [rollingMeanQ_filled 20 d.Close i (by omega),
      rollingVarQ_filled 20 d.Close i (by omega)]
    simp [h]

lemma bb_snd_none_iff (d : DF) (i : ℕ) :
    (PD.calculate_bollinger_bands d 20).2 i = none ↔ i < 19 := by
  show (match rollingMeanQ 20 d.Close i, rollingVarQ 20 d.Close i with
    | some m, some v => some ((m : ℝ) - Real.sqrt (v : ℝ) * 2)
    | _, _ => none) = none ↔ i < 19
  by_cases h : i < 19
  · rw [rollingMeanQ_none 20 _ i (by omega), rollingVarQ_none 20 _ i (by omega)]
    simp [h]
  · rw [rollingMeanQ_filled 20 d.Close i (by omega),
      rollingVarQ_filled 20 d.Close i (by omega)]
    simp [h]

lemma vma_none_iff (d : DF) (i : ℕ) : PD.Volume_MA d i = none ↔ i < 19 := by
  by_cases h : i < 19
  · rw [show PD.Volume_MA d i = none from rollingMeanQ_none 20 _ i (by omega)]
    simp [h]
  · rw [show PD.Volume_MA d i = _ from rollingMeanQ_filled 20 d.Volume i (by omega)]
    simp [h]

/-- Claim C6 (amended): each rolling indicator of
`calculate_technical_indicators` is undefined at every index before its
trailing window fills (the first 13 for RSI, the first 19 for the
window-20 indicators, the first 5 for the 5-period momentum).  At later
indices the Bollinger bands, `Volume_MA`, `20_day_high` and `20_day_low` are
always defined — these four exactly characterised by the `↔ i < 19`
components — but the indicators built from a data-dependent float division
are NaN at a filled index exactly when that division is `0 / 0`: RSI when
average gain and average loss are both 0, `Volume_Ratio` when the 20-day
mean volume and the volume are both 0, `Price_Momentum` when the Close five
sessions back and the current Close are both 0.  All the computations are
total, so none of them can raise. -/
theorem indicator_definedness (d : DF) (i : ℕ) :
    (i < 13 → PD.calculate_rsi d 14 i = none) ∧
    (13 ≤ i → (PD.calculate_rsi d 14 i = none ↔
        PD.avgGain d 14 i = some 0 ∧ PD.avgLoss d 14 i = some 0)) ∧
    ((PD.calculate_bollinger_bands d 20).1 i = none ↔ i < 19) ∧
    ((PD.calculate_bollinger_bands d 20).2 i = none ↔ i < 19) ∧
    (PD.Volume_MA d i = none ↔ i < 19) ∧
    (i < 19 → PD.Volume_Ratio d i = none) ∧
    (19 ≤ i → (PD.Volume_Ratio d i = none ↔
        PD.Volume_MA d i = some 0 ∧ d.Volume i = 0)) ∧
    (i < 5 → PD.Price_Momentum d i = none) ∧
    (5 ≤ i → (PD.Price_Momentum d i = none ↔
        d.Close (i - 5) = 0 ∧ d.Close i = 0)) ∧
    (PD.day20_high d i = none ↔ i < 19) ∧
    (PD.day20_low d i = none ↔ i < 19) := by
  refine ⟨calculate_rsi_unfilled d i, ?_, bb_fst_none_iff d i, bb_snd_none_iff d i,
    vma_none_iff d i, ?_, ?_, ?_, ?_, ?_, ?_⟩
  · intro h
    obtain ⟨g, hg, hgnn⟩ := avgGain_filled d i h
    obtain ⟨l, hl, hlnn⟩ := avgLoss_filled d i h
    rw [calculate_rsi_eval d i g l hg hl hgnn hlnn, hg, hl]
    by_cases hl0 : l = 0 <;> by_cases hg0 : g = 0 <;> simp [hl0, hg0]
  · intro h
    show (match PD.Volume_MA d i with
      | some m => fdiv (d.Volume i) m
      | none => none) = none
    rw [show PD.Volume_MA d i = none from rollingMeanQ_none 20 _ i (by omega)]
  · intro h
    obtain ⟨m, hm⟩ : ∃ m, PD.Volume_MA d i = some m :=
      ⟨_, rollingMeanQ_filled 20 d.Volume i (by omega)⟩
    show (match PD.Volume_MA d i with
      | some m => fdiv (d.Volume i) m
      | none => none) = none ↔ _
    rw [hm, fdiv_eq_none_iff]
    simp
  · intro h
    simp [PD.Price_Momentum, h]
  · intro h
    rw [show PD.Price_Momentum d i
        = fdiv (d.Close i - d.Close (i - 5)) (d.Close (i - 5)) from
      if_neg (by omega), fdiv_eq_none_iff]
    constructor
    · rintro ⟨h1, h2⟩
      refine ⟨h1, ?_⟩
      rw [h1, sub_zero] at h2
      exact h2
    · rintro ⟨h1, h2⟩
      refine ⟨h1, ?_⟩
      rw [h1, sub_zero]
      exact h2
  · show rollingMaxQ 20 d.High i = none ↔ i < 19
    unfold rollingMaxQ
    by_cases h : i + 1 < 20
    · simp only [if_pos h]
      simp
      omega
    · rw [if_neg h]
      simp
      omega
  · show rollingMinQ 20 d.Low i = none ↔ i < 19
    unfold rollingMinQ
    by_cases h : i + 1 < 20
    · simp only [if_pos h]
      simp
      omega
    · rw [if_neg h]
      simp
      omega

/-- A 20-row frame with nonzero Close and Volume, used to witness the
amended claim C6. -/
def wC6 : DF :=
  ⟨20, fun _ => 1, fun _ => 1, fun _ => 1, fun i => (i : ℚ) + 1, fun _ => 2, []⟩

/-- Claim C6 witness: on the 20-row frame `wC6`, the RSI is undefined at
index 5 and its NaN characterisation holds at index 19; `Volume_Ratio` is
undefined at index 7 and characterised at index 19; `Price_Momentum` is
undefined at index 3 and characterised at index 19. -/
theorem indicator_definedness_witness :
    PD.calculate_rsi wC6 14 5 = none ∧
    (PD.calculate_rsi wC6 14 19 = none ↔
        PD.avgGain wC6 14 19 = some 0 ∧ PD.avgLoss wC6 14 19 = some 0) ∧
    PD.Volume_Ratio wC6 7 = none ∧
    (PD.Volume_Ratio wC6 19 = none ↔
        PD.Volume_MA wC6 19 = some 0 ∧ wC6.Volume 19 = 0) ∧
    PD.Price_Momentum wC6 3 = none ∧
    (PD.Price_Momentum wC6 19 = none ↔
        wC6.Close (19 - 5) = 0 ∧ wC6.Close 19 = 0) :=
  ⟨(indicator_definedness wC6 5).1 (by omega),
   (indicator_definedness wC6 19).2.1 (by omega),
   (indicator_definedness wC6 7).2.2.2.2.2.1 (by omega),
   (indicator_definedness wC6 19).2.2.2.2.2.2.1 (by omega),
   (indicator_definedness wC6 3).2.2.2.2.2.2.2.1 (by omega),
   (indicator_definedness wC6 19).2.2.2.2.2.2.2.2.1 (by omega)⟩

/-- A 20-row frame whose Volume is identically 0. -/
def cexC6 : DF :=
  ⟨20, fun _ => 1, fun _ => 1, fun _ => 1, fun i => (i : ℚ), fun _ => 0, []⟩

/-- Claim C6 counterexample: on the all-zero-volume frame `cexC6`,
`Volume_Ratio` is undefined at index 19 even though the 20-row trailing
window is filled there (`19 ≤ 19 < 20 = n`) — the indicator is not undefined
"exactly at the first window-1 points" as the claim states. -/
theorem indicator_definedness_cex :
    (19 : ℕ) ≤ 19 ∧ 19 < cexC6.n ∧ PD.Volume_Ratio cexC6 19 = none := by
  have hm : PD.Volume_MA cexC6 19 = some 0 :=
    rollingMeanQ_zero 20 _ (fun j => rfl) 19 (by omega)
  refine ⟨le_refl 19, Nat.lt_succ_self 19, ?_⟩
  show (match PD.Volume_MA cexC6 19 with
    | some m => fdiv (cexC6.Volume 19) m
    | none => none) = none
  rw [hm]
  simp [fdiv, cexC6]

lemma analyze_volume_patterns_some (d : DF) (hne : ¬ d.n = 0) :
    (analyze_volume_patterns (some d)).2
      = some { volume_trend := volumeTrend d
               volume_spikes := volumeSpikes d
               price_volume_correlation := priceVolumeCorr d
               volume_consistency := volumeConsistency d
               buying_pressure :=
                 fdiv (upVolume d) (upVolume d + downVolume d) } := by
  simp only [analyze_volume_patterns]
  rw [if_neg hne]

/-- Claim C7: on every non-empty frame, `analyze_volume_patterns` reports
`buying_pressure` as the volume summed over sessions with `Close > Open`
divided (as floats) by that sum plus the volume summed over sessions with
`Close < Open`; with the data model's nonnegative volumes, a zero denominator
makes the division `0 / 0`, so the result is NaN rather than an error. -/
theorem buying_pressure_formula (d : DF) (h1 : 1 ≤ d.n) :
    ∃ va, (analyze_volume_patterns (some d)).2 = some va ∧
      va.buying_pressure =
        fdiv (∑ i in (Finset.range d.n).filter
                (fun i => d.Open i < d.Close i), d.Volume i)
          ((∑ i in (Finset.range d.n).filter
              (fun i => d.Open i < d.Close i), d.Volume i)
            + (∑ i in (Finset.range d.n).filter
                (fun i => d.Close i < d.Open i), d.Volume i)) ∧
      ((∀ i, i < d.n → 0 ≤ d.Volume i) →
        (∑ i in (Finset.range d.n).filter
            (fun i => d.Open i < d.Close i), d.Volume i)
          + (∑ i in (Finset.range d.n).filter
              (fun i => d.Close i < d.Open i), d.Volume i) = 0 →
        va.buying_pressure = none) := by
  have hne : ¬ d.n = 0 := by omega
  have hup : upVolume d = ∑ i in (Finset.range d.n).filter
      (fun i => d.Open i < d.Close i), d.Volume i := by
    unfold upVolume
    congr 1
    exact Finset.filter_congr (fun i _ => by rw [sub_pos])
  have hdown : downVolume d = ∑ i in (Finset.range d.n).filter
      (fun i => d.Close i < d.Open i), d.Volume i := by
    unfold downVolume
    congr 1
    exact Finset.filter_congr (fun i _ => by rw [sub_neg])
  refine ⟨_, analyze_volume_patterns_some d hne, ?_, ?_⟩
  · show fdiv (upVolume d) (upVolume d + downVolume d) = _
    rw [hup, hdown]
  · intro hnn hzero
    show fdiv (upVolume d) (upVolume d + downVolume d) = none
    have hU : 0 ≤ upVolume d := by
      apply Finset.sum_nonneg
      intro i hi
      exact hnn i (Finset.mem_range.mp (Finset.mem_filter.mp hi).1)
    have hD : 0 ≤ downVolume d := by
      apply Finset.sum_nonneg
      intro i hi
      exact hnn i (Finset.mem_range.mp (Finset.mem_filter.mp hi).1)
    have hsum : upVolume d + downVolume d = 0 := by
      rw [hup, hdown]
      exact hzero
    have hU0 : upVolume d = 0 := by linarith
    exact (fdiv_eq_none_iff _ _).mpr ⟨hsum, hU0⟩

/-- A one-row frame with equal Open and Close, so that neither up-volume nor
down-volume accumulates anything. -/
def wC7 : DF := ⟨1, fun _ => 1, fun _ => 1, fun _ => 1, fun _ => 1, fun _ => 1, []⟩

/-- Claim C7 witness: `buying_pressure` on the one-row frame `wC7` follows
the up/down volume formula, and is NaN there since the denominator is 0. -/
theorem buying_pressure_formula_witness :
    ∃ va, (analyze_volume_patterns (some wC7)).2 = some va ∧
      va.buying_pressure =
        fdiv (∑ i in (Finset.range wC7.n).filter
                (fun i => wC7.Open i < wC7.Close i), wC7.Volume i)
          ((∑ i in (Finset.range wC7.n).filter
              (fun i => wC7.Open i < wC7.Close i), wC7.Volume i)
            + (∑ i in (Finset.range wC7.n).filter
                (fun i => wC7.Close i < wC7.Open i), wC7.Volume i)) ∧
      ((∀ i, i < wC7.n → 0 ≤ wC7.Volume i) →
        (∑ i in (Finset.range wC7.n).filter
            (fun i => wC7.Open i < wC7.Close i), wC7.Volume i)
          + (∑ i in (Finset.range wC7.n).filter
              (fun i => wC7.Close i < wC7.Open i), wC7.Volume i) = 0 →
        va.buying_pressure = none) :=
  buying_pressure_formula wC7 (Nat.le_refl 1)

/-- Claim C9 (amended): for every non-empty frame whose Volume column is a
nonzero constant, `volume_trend` — the mean of the last `min 5 n` volumes
divided by the mean of all volumes — is exactly 1.  (For the constant-zero
volume the division is `0 / 0`, hence NaN; see the counterexample.) -/
theorem volume_trend_const (d : DF) (c : ℚ) (h1 : 1 ≤ d.n)
    (h2 : ∀ i, i < d.n → d.Volume i = c) (h3 : c ≠ 0) :
    ∃ va, (analyze_volume_patterns (some d)).2 = some va ∧
      va.volume_trend = some (XQ.num 1) := by
  have hne : ¬ d.n = 0 := by omega
  refine ⟨_, analyze_volume_patterns_some d hne, ?_⟩
  show volumeTrend d = some (XQ.num 1)
  unfold volumeTrend volMean
  have htail : (∑ i in Finset.Ico (d.n - min 5 d.n) d.n, d.Volume i)
      = ((min 5 d.n : ℕ) : ℚ) * c := by
    rw [Finset.sum_congr rfl (fun i hi => h2 i (Finset.mem_Ico.mp hi).2),
      Finset.sum_const, Nat.card_Ico]
    have hcard : d.n - (d.n - min 5 d.n) = min 5 d.n := by omega
    rw [hcard, nsmul_eq_mul]
  have hall : (∑ i in Finset.range d.n, d.Volume i) = ((d.n : ℕ) : ℚ) * c := by
    rw [Finset.sum_congr rfl (fun i hi => h2 i (Finset.mem_range.mp hi)),
      Finset.sum_const, Finset.card_range, nsmul_eq_mul]
  have hmin0 : ((min 5 d.n : ℕ) : ℚ) ≠ 0 := Nat.cast_ne_zero.mpr (by omega)
  have hn0 : ((d.n : ℕ) : ℚ) ≠ 0 := Nat.cast_ne_zero.mpr (by omega)
  rw [htail, hall, mul_div_cancel_left₀ _ hmin0, mul_div_cancel_left₀ _ hn0]
  rw [fdiv, if_neg h3, div_self h3]

/-- A three-row frame with constant nonzero Volume. -/
def wC9 : DF := ⟨3, fun _ => 1, fun _ => 1, fun _ => 1, fun _ => 1, fun _ => 5, []⟩

/-- Claim C9 witness: on the constant-volume frame `wC9`, `volume_trend`
equals 1. -/
theorem volume_trend_const_witness :
    ∃ va, (analyze_volume_patterns (some wC9)).2 = some va ∧
      va.volume_trend = some (XQ.num 1) :=
  volume_trend_const wC9 5 (by decide) (fun i _ => rfl) (by norm_num)

/-- A one-row frame whose single Volume entry is 0 — a non-empty series with
constant volume. -/
def cexC9 : DF := ⟨1, fun _ => 0, fun _ => 0, fun _ => 0, fun _ => 0, fun _ => 0, []⟩

/-- Claim C9 counterexample: on the non-empty constant-volume frame `cexC9`
the claim demands `volume_trend = 1.0`, but the code computes `0 / 0`, i.e.
NaN — the claim as stated is false for the constant volume 0. -/
theorem volume_trend_cex :
    cexC9.n = 1 ∧ cexC9.Volume = (fun _ => (0 : ℚ)) ∧
    Option.map VolumeAnalysis.volume_trend
      (analyze_volume_patterns (some cexC9)).2 = some none := by
  refine ⟨rfl, rfl, ?_⟩
  rw [analyze_volume_patterns_some cexC9 (by decide)]
  simp [volumeTrend, volMean, cexC9, fdiv]
